import Mathlib

/-!
# Verification of the email-sender scheduling core

Shallow embedding of the repository's scheduling / parsing / dispatch logic.

Modelling conventions:
* JS `number` is modelled as `ℚ` (exact arithmetic; the float-rounding of the
  host is not modelled).  Epoch timestamps are `ℚ` (they are produced as
  integers by the code, but typed `number` in the source).
* `Date.now()` is passed in as an explicit `now` parameter: time is treated as
  frozen during one invocation.
* Host-locale dependent pieces of the JS `Date` API (the `new Date(string)`
  fallback parse and the local-time calendar arithmetic inside
  `excelSerialToDate`) are abstracted into a `JsDateEnv` record of functions.
* JS `\s` / `trim` whitespace and `toLowerCase` are modelled with
  `Char.isWhitespace` / `Char.toLower` (ASCII case folding); all string
  constants involved are ASCII, CJK or glyphs, on which the two agree.
-/

namespace EmailSender

/-! ## Calendar arithmetic (ECMAScript `Date.UTC` / UTC field extraction) -/

/-- Days since 1970-01-01 of the proleptic-Gregorian civil date `(y, m, d)`
with `m ∈ 1..12`; linear in `d`, so out-of-range `d` rolls over exactly as
ECMAScript `MakeDay` does. -/
def daysFromCivil (y m d : Int) : Int :=
  let y1 : Int := if m ≤ 2 then y - 1 else y
  let era : Int := Int.fdiv y1 400
  let yoe : Int := y1 - era * 400
  let mp : Int := Int.emod (m + 9) 12
  let doy : Int := Int.ediv (153 * mp + 2) 5 + d - 1
  let doe : Int := yoe * 365 + Int.ediv yoe 4 - Int.ediv yoe 100 + doy
  era * 146097 + doe - 719468

/-- Civil date from days since 1970-01-01 (inverse of `daysFromCivil`). -/
def civilFromDays (z0 : Int) : Int × Int × Int :=
  let z : Int := z0 + 719468
  let era : Int := Int.fdiv z 146097
  let doe : Int := z - era * 146097
  let yoe : Int := Int.ediv (doe - Int.ediv doe 1460 + Int.ediv doe 36524 - Int.ediv doe 146096) 365
  let y : Int := yoe + era * 400
  let doy : Int := doe - (365 * yoe + Int.ediv yoe 4 - Int.ediv yoe 100)
  let mp : Int := Int.ediv (5 * doy + 2) 153
  let d : Int := doy - Int.ediv (153 * mp + 2) 5 + 1
  let m : Int := mp + (if mp < 10 then 3 else -9)
  (y + (if m ≤ 2 then 1 else 0), m, d)

/-- ECMAScript `Date.UTC(year, monthIndex, day, hours, minutes, 0, 0)` as an
integer count of milliseconds (the `TimeClip` range check is performed by the
caller, as in the source).  Includes the two-digit-year rule (`0..99` maps to
`1900..1999`) and month-index normalisation. -/
def dateUTC (y monthIndex d h min : Int) : Int :=
  let yy : Int := if 0 ≤ y ∧ y ≤ 99 then 1900 + y else y
  let ym : Int := yy + Int.fdiv monthIndex 12
  let mn : Int := Int.emod monthIndex 12
  daysFromCivil ym (mn + 1) d * 86400000 + h * 3600000 + min * 60000

/-- JS `ToInteger` on a finite number: truncation toward zero. -/
def jsTrunc (q : ℚ) : Int :=
  if 0 ≤ q then ⌊q⌋ else -⌊-q⌋

/-- `String(n).padStart(2, "0")` for an integer. -/
def pad2 (n : Int) : String :=
  let s := toString n
  if s.length < 2 then "0" ++ s else s

/-- `src/lib/excel.ts` `formatToBeijingTime`: render `timestamp + 8h` with UTC
field extraction as `YYYY-MM-DD HH:MM`. -/
def formatToBeijingTime (timestamp : ℚ) : String :=
  let tv : Int := jsTrunc (timestamp + 8 * 60 * 60 * 1000)
  let days : Int := Int.fdiv tv 86400000
  let ymd := civilFromDays days
  let hours : Int := Int.emod (Int.fdiv tv 3600000) 24
  let minutes : Int := Int.emod (Int.fdiv tv 60000) 60
  let ys := toString ymd.1
  let ms := pad2 ymd.2.1
  let ds := pad2 ymd.2.2
  let hs := pad2 hours
  let mins := pad2 minutes
  s!"{ys}-{ms}-{ds} {hs}:{mins}"

/-! ## JS string parsing primitives -/

/-- JS `String.prototype.trim()` (whitespace stripped from both ends),
implemented structurally over the character list. -/
def jsTrim (s : String) : String :=
  ⟨((s.data.dropWhile Char.isWhitespace).reverse.dropWhile
      Char.isWhitespace).reverse⟩

/-- JS `String.prototype.toLowerCase()` (ASCII case folding suffices for
every constant compared in this code base). -/
def jsToLower (s : String) : String :=
  ⟨s.data.map Char.toLower⟩

/-- Numeric value of a list of ASCII digits. -/
def digitsToNat (ds : List Char) : Nat :=
  ds.foldl (fun a c => a * 10 + (c.toNat - '0'.toNat)) 0

def isAsciiDigit (c : Char) : Bool := '0' ≤ c && c ≤ '9'

/-- The syntactic pieces of a JS decimal literal: sign, integer-part value,
fraction value and digit count, exponent. -/
structure FloatParts where
  neg : Bool
  ip : Nat
  fp : Nat
  fplen : Nat
  expv : Int
deriving Repr, DecidableEq

/-- JS `parseFloat`, syntactic phase: skip leading whitespace, optional sign,
longest decimal literal prefix (`digits [. digits] [e/E [sign] digits]`);
`none` models `NaN`.  (`Infinity` literals are not modelled; no caller passes
them.) -/
def jsParseFloatParts (s : String) : Option FloatParts :=
  let cs0 := s.data.dropWhile Char.isWhitespace
  let signAndRest : Bool × List Char :=
    match cs0 with
    | '-' :: r => (true, r)
    | '+' :: r => (false, r)
    | _ => (false, cs0)
  let neg := signAndRest.1
  let cs1 := signAndRest.2
  let ipSplit := cs1.span isAsciiDigit
  let ip := ipSplit.1
  let cs2 := ipSplit.2
  let fpSplit : List Char × List Char :=
    match cs2 with
    | '.' :: r => r.span isAsciiDigit
    | _ => ([], cs2)
  let fp := fpSplit.1
  let cs3 := fpSplit.2
  if ip.isEmpty && (match cs2 with | '.' :: _ => fp.isEmpty | _ => true) then
    none
  else
    let expv : Int :=
      match cs3 with
      | 'e' :: r => jsParseExp r
      | 'E' :: r => jsParseExp r
      | _ => 0
    some ⟨neg, digitsToNat ip, digitsToNat fp, fp.length, expv⟩
where
  /-- Exponent part: optional sign then digits; an incomplete exponent
  contributes nothing (JS backtracks out of it). -/
  jsParseExp (r : List Char) : Int :=
    match r with
    | '-' :: r2 => if (r2.takeWhile isAsciiDigit).isEmpty then 0
        else -(digitsToNat (r2.takeWhile isAsciiDigit) : Int)
    | '+' :: r2 => if (r2.takeWhile isAsciiDigit).isEmpty then 0
        else (digitsToNat (r2.takeWhile isAsciiDigit) : Int)
    | _ => if (r.takeWhile isAsciiDigit).isEmpty then 0
        else (digitsToNat (r.takeWhile isAsciiDigit) : Int)

/-- Numeric value of parsed literal pieces. -/
def partsToRat (p : FloatParts) : ℚ :=
  (if p.neg then -1 else 1) *
    ((p.ip : ℚ) + (p.fp : ℚ) / (10 : ℚ) ^ p.fplen) * (10 : ℚ) ^ p.expv

/-- JS `parseFloat`. -/
def jsParseFloat (s : String) : Option ℚ :=
  (jsParseFloatParts s).map partsToRat

/-- Grab a maximal run of digits and require its length in `[lo, hi]`;
equivalent to the anchored regex groups `\d{4}` / `\d{1,2}` / `\d{2}` of the
source, whose neighbours are never digits. -/
def grabDigits (lo hi : Nat) (cs : List Char) : Option (Nat × List Char) :=
  let sp := cs.span isAsciiDigit
  if lo ≤ sp.1.length ∧ sp.1.length ≤ hi then some (digitsToNat sp.1, sp.2)
  else none

def isDateSep (c : Char) : Bool := c = '-' || c = '/'

/-- `^(\d{4})[-\/](\d{1,2})[-\/](\d{1,2})$` of `calculateSchedule`. -/
def matchIsoDate (s : String) : Option (Int × Int × Int) :=
  match grabDigits 4 4 s.data with
  | none => none
  | some (y, r1) =>
    match r1 with
    | c1 :: r2 =>
      if isDateSep c1 then
        match grabDigits 1 2 r2 with
        | none => none
        | some (m, r3) =>
          match r3 with
          | c2 :: r4 =>
            if isDateSep c2 then
              match grabDigits 1 2 r4 with
              | some (d, []) => some ((y : Int), (m : Int), (d : Int))
              | _ => none
            else none
          | [] => none
      else none
    | [] => none

/-- `^(\d{1,2})[-\/](\d{1,2})[-\/](\d{4})$` of `calculateSchedule`
(month, day, year). -/
def matchUsDate (s : String) : Option (Int × Int × Int) :=
  match grabDigits 1 2 s.data with
  | none => none
  | some (m, r1) =>
    match r1 with
    | c1 :: r2 =>
      if isDateSep c1 then
        match grabDigits 1 2 r2 with
        | none => none
        | some (d, r3) =>
          match r3 with
          | c2 :: r4 =>
            if isDateSep c2 then
              match grabDigits 4 4 r4 with
              | some (y, []) => some ((m : Int), (d : Int), (y : Int))
              | _ => none
            else none
          | [] => none
      else none
    | [] => none

/-- `^(\d{1,2}):(\d{2})(?::\d{2})?$` — 24-hour clock. -/
def matchTime24 (s : String) : Option (Int × Int) :=
  match grabDigits 1 2 s.data with
  | none => none
  | some (h, r1) =>
    match r1 with
    | ':' :: r2 =>
      match grabDigits 2 2 r2 with
      | none => none
      | some (m, r3) =>
        match r3 with
        | [] => some ((h : Int), (m : Int))
        | ':' :: r4 =>
          match grabDigits 2 2 r4 with
          | some (_, []) => some ((h : Int), (m : Int))
          | _ => none
        | _ => none
    | _ => none

/-- `^(\d{1,2}):(\d{2})\s*(AM|PM|am|pm)?$` (case-insensitive) — 12-hour clock;
returns hours, minutes, and the optional period (lowercased). -/
def matchTime12 (s : String) : Option (Int × Int × Option String) :=
  match grabDigits 1 2 s.data with
  | none => none
  | some (h, r1) =>
    match r1 with
    | ':' :: r2 =>
      match grabDigits 2 2 r2 with
      | none => none
      | some (m, r3) =>
        let r4 := r3.dropWhile Char.isWhitespace
        match r4 with
        | [] => some ((h : Int), (m : Int), none)
        | [a, b] =>
          let p := String.mk [a.toLower, b.toLower]
          if p = "am" ∨ p = "pm" then some ((h : Int), (m : Int), some p)
          else none
        | _ => none
    | _ => none

/-! ## `src/lib/excel.ts` — the Temporal Normalizer -/

/-- `excelSerialToTime`: fractional-day serial to hours/minutes via
`Math.round(serial * 24 * 60)`; note there is no `% 24` on the hours.
(`Math.round` = `⌊x + 1/2⌋` = Mathlib `round` on ℚ; `Math.floor` on a
nonnegative quotient and JS `%` on nonnegative operands are `fdiv`/`emod`.) -/
def excelSerialToTime (serial : ℚ) : Int × Int :=
  let totalMinutes : Int := round (serial * 24 * 60)
  (Int.fdiv totalMinutes 60, Int.emod totalMinutes 60)

/-- `isPacificDST`: the hand-rolled DST window (Mar 15 – Oct 31, plus
Nov 1 – 6). -/
def isPacificDST (year month day : Int) : Bool :=
  if 3 < month ∧ month < 11 then true
  else if month = 3 ∧ 15 ≤ day then true
  else if month = 11 ∧ day < 7 then true
  else false

/-- The UTC offset (in hours) `calculateSchedule` adds to the parsed
wall-clock hours: `isDST ? 7 : 8` (PDT = UTC-7, PST = UTC-8). -/
def pacificOffsetFor (year month day : Int) : Int :=
  if isPacificDST year month day then 7 else 8

/-- Host-locale dependent pieces of the JS `Date` API used by
`calculateSchedule`:
* `fallbackParse`: `new Date(dateStr)` followed by
  `getFullYear/getMonth+1/getDate`; `none` models an `Invalid Date`.
* `serialToCivil`: `excelSerialToDate(Math.floor(serial))` followed by the
  same local-calendar getters (the source constructs `new Date(1899, 11, 30)`
  in host-local time). -/
structure JsDateEnv where
  fallbackParse : String → Option (Int × Int × Int)
  serialToCivil : Int → Int × Int × Int

/-- Lines 213–262 of `calculateSchedule`: obtain calendar fields from the
date string — Excel serial (with optional fractional time part), ISO match,
US match, or the `new Date` fallback; `none` is the "cannot parse" path. -/
def parseDatePart (env : JsDateEnv) (dateStr : String) :
    Option ((Int × Int × Int) × Option (Int × Int)) :=
  let structured : Option ((Int × Int × Int) × Option (Int × Int)) :=
    match matchIsoDate dateStr with
    | some ymd => some (ymd, none)
    | none =>
      match matchUsDate dateStr with
      | some mdy => some ((mdy.2.2, mdy.1, mdy.2.1), none)
      | none =>
        match env.fallbackParse dateStr with
        | some ymd => some (ymd, none)
        | none => none
  match jsParseFloat dateStr with
  | some numericDate =>
    if 1000 < numericDate ∧ numericDate < 100000 then
      let civ := env.serialToCivil ⌊numericDate⌋
      let timePart : ℚ := numericDate - (⌊numericDate⌋ : ℚ)
      some (civ, if 0 < timePart then some (excelSerialToTime timePart) else none)
    else structured
  | none => structured

/-- Lines 266–299 of `calculateSchedule`: resolve the time-of-day string,
starting from hours/minutes possibly taken from the date serial's fractional
part (`h0`, `m0`). -/
def timeResolve (timeStr : String) (h0 m0 : Int) : Int × Int :=
  let clock : Int × Int :=
    if timeStr ≠ "" ∧ timeStr ≠ "00:00" then
      match matchTime24 timeStr with
      | some hm => hm
      | none =>
        match matchTime12 timeStr with
        | some (h, m, period) =>
          match period with
          | some p =>
            if p = "pm" ∧ h ≠ 12 then (h + 12, m)
            else if p = "am" ∧ h = 12 then (0, m)
            else (h, m)
          | none => (h, m)
        | none => (h0, m0)
    else (h0, m0)
  match jsParseFloat timeStr with
  | some numericTime =>
    if 0 ≤ numericTime ∧ numericTime < 1 then excelSerialToTime numericTime
    else clock
  | none => clock

structure ScheduleResult where
  delayHours : ℚ
  scheduledTimestamp : ℚ
  beijingTimeStr : String
deriving Repr, DecidableEq

/-- The "send immediately" result every degenerate branch of
`calculateSchedule` returns. -/
def immediateResult (now : ℚ) : ScheduleResult :=
  { delayHours := 0, scheduledTimestamp := now
    beijingTimeStr := formatToBeijingTime now }

/-- `Math.round(x * 100) / 100` — delay hours rounded to 2 decimals. -/
def round2 (q : ℚ) : ℚ := (round (q * 100) : ℚ) / 100

/-- `calculateSchedule(sendDate, sendTime)` of `src/lib/excel.ts`
(lines 195–339), with `now = Date.now()` explicit. -/
def calculateSchedule (env : JsDateEnv) (sendDate sendTime : String) (now : ℚ) :
    ScheduleResult :=
  if sendDate = "" then immediateResult now
  else
    let dateStr := jsTrim sendDate
    let timeStr := if sendTime = "" then "00:00" else jsTrim sendTime
    match parseDatePart env dateStr with
    | none => immediateResult now
    | some (civ, serialTime) =>
      let hm0 := serialTime.getD (0, 0)
      let hm := timeResolve timeStr hm0.1 hm0.2
      let pacificOffset : Int := pacificOffsetFor civ.1 civ.2.1 civ.2.2
      let targetUtc : ℚ :=
        (dateUTC civ.1 (civ.2.1 - 1) civ.2.2 (hm.1 + pacificOffset) hm.2 : ℚ)
      if 8640000000000000 < |targetUtc| then immediateResult now
      else
        let diffMs : ℚ := targetUtc - now
        let diffHours : ℚ := diffMs / (1000 * 60 * 60)
        if diffHours ≤ 0 then immediateResult now
        else
          { delayHours := round2 diffHours
            scheduledTimestamp := targetUtc
            beijingTimeStr := formatToBeijingTime targetUtc }

/-- The absolute instant `calculateSchedule` computes for its input, when the
date is parseable (`none` = the spec's `parseCalendarDate` yields null). -/
def scheduledInstantOf (env : JsDateEnv) (sendDate sendTime : String) :
    Option ℚ :=
  if sendDate = "" then none
  else
    match parseDatePart env (jsTrim sendDate) with
    | none => none
    | some (civ, serialTime) =>
      let timeStr := if sendTime = "" then "00:00" else jsTrim sendTime
      let hm0 := serialTime.getD (0, 0)
      let hm := timeResolve timeStr hm0.1 hm0.2
      let pacificOffset : Int := pacificOffsetFor civ.1 civ.2.1 civ.2.2
      some ((dateUTC civ.1 (civ.2.1 - 1) civ.2.2 (hm.1 + pacificOffset) hm.2 : ℚ))

/-! ## `src/lib/excel.ts` — the Recipient Task Parser

`XLSX.read` / `sheet_to_json` are the external tabular reader (spec §6); the
embedding starts from the row list it produces.  A row is an association list
from column label to the cell rendered by `String(...)` (`sheet_to_json` omits
empty cells, which `getColumnValue` treats the same as `""`). -/

abbrev Row := List (String × String)

/-- One parsed recipient task (`EmailTaskWithDelay`). -/
structure EmailTaskWithDelay where
  «to» : String
  contactName : String
  audienceType : String
  phase : String
  subject : String
  sendDate : String
  sendTime : String
  sendDateTimeBeijing : String
  day : String
  content : String
  delayHours : ℚ
  scheduledTimestamp : ℚ
deriving Repr, DecidableEq

structure ParseResult where
  success : Bool
  tasks : Option (List EmailTaskWithDelay)
  error : Option String
deriving Repr, DecidableEq

/-- `getColumnValue`: first alias whose cell is present and not `""`, trimmed.
(The emptiness test precedes the trim, so a whitespace-only cell yields
`some ""`.) -/
def getColumnValue (row : Row) (possibleNames : List String) : Option String :=
  match possibleNames with
  | [] => none
  | name :: rest =>
    match row.lookup name with
    | some v => if v = "" then getColumnValue row rest else some (jsTrim v)
    | none => getColumnValue row rest

/-- JS truthiness of `getColumnValue`'s result (`null` and `""` are falsy). -/
def colFalsy : Option String → Bool
  | none => true
  | some s => s = ""

/-- `isValidEmail`: the regex `^[^\s@]+@[^\s@]+\.[^\s@]+$`.  The regex matches
exactly the strings of shape `A@B.C` with `A, B, C` nonempty and free of
whitespace and `@` (`B`, `C` may contain further dots), which is equivalent
to: no whitespace anywhere, exactly one `@`, the `@` not first, and a `.`
strictly inside the part after the `@`. -/
def isValidEmail (email : String) : Bool :=
  let cs := email.data
  (cs.all fun c => !c.isWhitespace) &&
  cs.count '@' = 1 &&
  (match cs.findIdx? (· = '@') with
   | some i => decide (0 < i) && ((cs.drop (i + 1)).drop 1).dropLast.contains '.'
   | none => false)

/-- The recognised sent markers of `isSentMarker`. -/
def sentMarkers : List String :=
  ["已发送", "sent", "yes", "y", "true", "1", "✓", "✔", "done", "completed",
   "发送成功"]

/-- `isSentMarker(value)`: lowercase, trim, membership in `sentMarkers`. -/
def isSentMarker (value : String) : Bool :=
  let normalizedValue := jsTrim (jsToLower value)
  sentMarkers.contains normalizedValue

/-- Column aliases, in the source's order. -/
def sentStatusAliases : List String :=
  ["Sent Status", "已发送", "Status", "状态", "发送状态"]
def emailAliases : List String :=
  ["Email", "email", "邮箱", "收件人", "to", "邮件地址"]
def contactNameAliases : List String :=
  ["Contact Name", "联系人", "姓名", "Name", "收件人姓名"]
def audienceTypeAliases : List String :=
  ["Audience Type", "受众类型", "类型", "Type"]
def phaseAliases : List String := ["Phase", "阶段", "phase"]
def subjectAliases : List String :=
  ["Subject Line", "Subject", "subject", "主题", "标题", "邮件主题"]
def sendDateAliases : List String := ["Send Date", "发送日期", "日期", "Date"]
def sendTimeAliases : List String := ["Send Time", "发送时间", "时间", "Time"]
def dayAliases : List String := ["Day", "星期", "day", "周几"]
def contentAliases : List String :=
  ["Email Body", "content", "内容", "正文", "Content", "body", "邮件内容"]

/-- Accumulator of the row loop of `parseExcelBuffer`. -/
structure ParseAcc where
  tasks : List EmailTaskWithDelay
  errors : List String
  skippedCount : Nat
deriving Repr, DecidableEq

/-- One iteration of the `parseExcelBuffer` row loop (lines 46–105), for the
row at 0-based position `i` (reported as row `i + 2`). -/
def parseRowStep (env : JsDateEnv) (now : ℚ) (i : Nat) (row : Row)
    (acc : ParseAcc) : ParseAcc :=
  let rowNum := i + 2
  let sentStatus := getColumnValue row sentStatusAliases
  if ¬colFalsy sentStatus ∧ isSentMarker (sentStatus.getD "") then
    { acc with skippedCount := acc.skippedCount + 1 }
  else
    let email := getColumnValue row emailAliases
    let contactName := (getColumnValue row contactNameAliases).getD ""
    let audienceType := (getColumnValue row audienceTypeAliases).getD ""
    let phase := (getColumnValue row phaseAliases).getD ""
    let subject := getColumnValue row subjectAliases
    let sendDate := (getColumnValue row sendDateAliases).getD ""
    let sendTime := (getColumnValue row sendTimeAliases).getD ""
    let day := (getColumnValue row dayAliases).getD ""
    let content := getColumnValue row contentAliases
    if colFalsy email then
      { acc with errors := acc.errors ++ [s!"Row {rowNum}: Missing email address"] }
    else if ¬isValidEmail (email.getD "") then
      let e := email.getD ""
      { acc with errors := acc.errors ++ [s!"Row {rowNum}: Invalid email format: {e}"] }
    else if colFalsy subject then
      { acc with errors := acc.errors ++ [s!"Row {rowNum}: Missing subject"] }
    else if colFalsy content then
      { acc with errors := acc.errors ++ [s!"Row {rowNum}: Missing content"] }
    else
      let schedule := calculateSchedule env sendDate sendTime now
      { acc with tasks := acc.tasks ++
          [{ «to» := email.getD ""
             contactName := contactName
             audienceType := audienceType
             phase := phase
             subject := subject.getD ""
             sendDate := sendDate
             sendTime := sendTime
             sendDateTimeBeijing := schedule.beijingTimeStr
             day := day
             content := content.getD ""
             delayHours := schedule.delayHours
             scheduledTimestamp := schedule.scheduledTimestamp }] }

/-- The whole row loop, threading the 0-based index. -/
def parseRows (env : JsDateEnv) (now : ℚ) (i : Nat) (data : List Row)
    (acc : ParseAcc) : ParseAcc :=
  match data with
  | [] => acc
  | row :: rest => parseRows env now (i + 1) rest (parseRowStep env now i row acc)

/-- `", "`-free join: the source uses `errors.join("; ")`. -/
def joinSemicolon : List String → String
  | [] => ""
  | [s] => s
  | s :: rest => s ++ "; " ++ joinSemicolon rest

/-- `parseExcelBuffer` from the row list onward (lines 37–122); the
`XLSX.read` exception path (lines 119–122) is the external reader's and is
not modelled. -/
def parseExcelRows (env : JsDateEnv) (now : ℚ) (data : List Row) : ParseResult :=
  if data = [] then
    { success := false, tasks := none, error := some "Excel file is empty" }
  else
    let acc := parseRows env now 0 data ⟨[], [], 0⟩
    if acc.tasks = [] then
      { success := false, tasks := none
        error := some ("No valid email tasks found. Errors: " ++ joinSemicolon acc.errors) }
    else
      { success := true, tasks := some acc.tasks, error := none }

/-! ## `src/lib/email-history.ts` — the Delivery History Ledger

The Supabase `email_history` table is modelled as a list of rows; the query
`.in("email", normalizedEmails).gte("sent_count", maxSendCount)` is a filter
over it.  (The unconfigured-store early return `[]` is outside the model.) -/

structure EmailHistoryRow where
  email : String
  last_sent_at : ℚ
  sent_count : Int
  subjects : List String
deriving Repr, DecidableEq

structure EmailHistoryRecord where
  email : String
  lastSentAt : ℚ
  sentCount : Int
  subjects : List String
deriving Repr, DecidableEq

/-- `email.toLowerCase().trim()`. -/
def normalizeEmail (email : String) : String := jsTrim (jsToLower email)

def rowToRecord (r : EmailHistoryRow) : EmailHistoryRecord :=
  { email := r.email, lastSentAt := r.last_sent_at, sentCount := r.sent_count
    subjects := r.subjects }

/-- `checkDuplicateEmails(emails, maxSendCount)`: the rows of the history
table whose key is among the normalized input addresses and whose
`sent_count >= maxSendCount` (the `.gte` filter), in table order. -/
def checkDuplicateEmails (store : List EmailHistoryRow) (emails : List String)
    (maxSendCount : Int) : List EmailHistoryRecord :=
  let normalizedEmails := emails.map normalizeEmail
  ((store.filter fun r =>
      normalizedEmails.contains r.email && maxSendCount ≤ r.sent_count)).map
    rowToRecord

/-! ## `src/app/api/upload/route.ts` — within-upload duplicate detection -/

/-- One step of the `emailCounts` Map construction (lines 88–92):
`emailCounts.set(normalized, (emailCounts.get(normalized) || 0) + 1)`,
keeping JS `Map` insertion order. -/
def bumpCount (m : List (String × Nat)) (e : String) : List (String × Nat) :=
  if m.any (fun p => p.1 = e) then
    m.map fun p => if p.1 = e then (p.1, p.2 + 1) else p
  else m ++ [(e, 1)]

/-- The per-normalized-address occurrence counts of the current upload. -/
def emailCounts (emails : List String) : List (String × Nat) :=
  emails.foldl (fun m email => bumpCount m (normalizeEmail email)) []

/-- `inFileDuplicates` (lines 93–95): addresses occurring strictly more than
3 times in the upload. -/
def inFileDuplicates (emails : List String) : List (String × Nat) :=
  (emailCounts emails).filter fun p => 3 < p.2

/-! ## `src/lib/storage.ts` — client-held job state -/

inductive TaskStatus where
  | pending | sent | failed
deriving Repr, DecidableEq

inductive JobStatus where
  | pending | processing | completed | failed
deriving Repr, DecidableEq

structure StoredTask where
  «to» : String
  contactName : String
  audienceType : String
  phase : String
  subject : String
  sendDate : String
  sendTime : String
  day : String
  content : String
  delayHours : ℚ
  scheduledFor : ℚ
  status : TaskStatus
  sentAt : Option ℚ := none
  error : Option String := none
deriving Repr, DecidableEq

structure JobResult where
  total : Nat
  success : Nat
  failed : Nat
deriving Repr, DecidableEq

/-- `StoredJob` (the `emailConfig` credentials are opaque to the model and
omitted; they are threaded to the external transport only). -/
structure StoredJob where
  id : String
  tasks : List StoredTask
  createdAt : ℚ
  status : JobStatus
  result : Option JobResult := none
deriving Repr, DecidableEq

/-- `CreateJobInput` — note: no `scheduledTimestamp` field, so `createJobData`
cannot reuse the parser's exact instant. -/
structure CreateJobInput where
  «to» : String
  contactName : String
  audienceType : String
  phase : String
  subject : String
  sendDate : String
  sendTime : String
  day : String
  content : String
  delayHours : ℚ
deriving Repr, DecidableEq

/-- `createJobData` (lines 147–175): one fresh `Date.now()` reading shared by
all tasks; `scheduledFor = now + delayHours * 3600000`.  `generateJobId`'s
randomness is passed in as `jobId`. -/
def createJobData (tasks : List CreateJobInput) (now : ℚ) (jobId : String) :
    StoredJob :=
  let storedTasks : List StoredTask := tasks.map fun task =>
    { «to» := task.«to»
      contactName := task.contactName
      audienceType := task.audienceType
      phase := task.phase
      subject := task.subject
      sendDate := task.sendDate
      sendTime := task.sendTime
      day := task.day
      content := task.content
      delayHours := task.delayHours
      scheduledFor := now + task.delayHours * 60 * 60 * 1000
      status := TaskStatus.pending }
  { id := jobId, tasks := storedTasks, createdAt := now
    status := JobStatus.pending }

/-- `getPendingTasksForJob` (`src/lib/storage.ts` lines 177–182). -/
def getPendingTasksForJob (job : StoredJob) (now : ℚ) :
    List (StoredTask × Nat) :=
  (job.tasks.enum.map fun p => (p.2, p.1)).filter fun p =>
    p.1.status = TaskStatus.pending ∧ p.1.scheduledFor ≤ now

/-- The `EmailTaskWithDelay → CreateJobInput` adaptation performed implicitly
by the upload route when it passes `parseResult.tasks` to `createJobData`
(the extra `scheduledTimestamp` / display fields are dropped by typing). -/
def toCreateJobInput (t : EmailTaskWithDelay) : CreateJobInput :=
  { «to» := t.«to», contactName := t.contactName
    audienceType := t.audienceType, phase := t.phase, subject := t.subject
    sendDate := t.sendDate, sendTime := t.sendTime, day := t.day
    content := t.content, delayHours := t.delayHours }

/-- A durable `scheduled_emails` record as built by the upload route
(lines 107–119); scheduling fields only, `email_config` omitted as above. -/
structure ScheduledDeliveryRecord where
  job_id : String
  to_email : String
  contact_name : String
  subject : String
  content : String
  send_date : String
  send_time : String
  scheduled_for : ℚ
  status : TaskStatus
deriving Repr, DecidableEq

/-- Upload route lines 104–125: the durable records saved for the
future-scheduled tasks — `scheduled_for` is the parser's exact
`scheduledTimestamp`. -/
def uploadScheduledRecords (tasks : List EmailTaskWithDelay) (now : ℚ)
    (jobId : String) : List ScheduledDeliveryRecord :=
  (tasks.filter fun t => now < t.scheduledTimestamp).map fun t =>
    { job_id := jobId
      to_email := t.«to»
      contact_name := t.contactName
      subject := t.subject
      content := t.content
      send_date := t.sendDate
      send_time := t.sendTime
      scheduled_for := t.scheduledTimestamp
      status := TaskStatus.pending }

/-! ## Dispatch loops

The external mail transport (`sendEmail`) is a capability: `none` models
`{success: true}`, `some msg` models `{success: false, error: msg}`.  The
pacing `await setTimeout(..., 2000)` calls are recorded as `pacingDelay`
events in an observable trace. -/

inductive DispatchEvent where
  | attempt (address : String)
  | pacingDelay
  | skipped (address : String)
deriving Repr, DecidableEq

def countDelays (es : List DispatchEvent) : Nat :=
  es.countP fun e => e = DispatchEvent.pacingDelay

/-! ### `src/app/api/cron/route.ts` — the non-SSE send-job `POST` -/

structure SendDetail where
  email : String
  success : Bool
  error : Option String
deriving Repr, DecidableEq

structure SendLoopState where
  tasks : List StoredTask
  details : List SendDetail
  successCount : Nat
  failedCount : Nat
  skippedCount : Nat
  trace : List DispatchEvent
deriving Repr, DecidableEq

/-- The selection filter shared by both send routes (lines 113–119 and
352–359): `pending` and, when an inclusion set was provided, membership in
it. -/
def selectPendingTasks (job : StoredJob) (selectedEmails : Option (List String)) :
    List (StoredTask × Nat) :=
  (job.tasks.enum.map fun p => (p.2, p.1)).filter fun p =>
    p.1.status = TaskStatus.pending &&
      (match selectedEmails with
       | none => true
       | some sel => sel.contains p.1.«to»)

/-- Lines 374–376: `sendAll ? pendingTasks : pendingTasks.filter(scheduledFor
<= Date.now())`. -/
def tasksToSendOf (job : StoredJob) (sendAll : Bool)
    (selectedEmails : Option (List String)) (now : ℚ) :
    List (StoredTask × Nat) :=
  let pendingTasks := selectPendingTasks job selectedEmails
  if sendAll then pendingTasks
  else pendingTasks.filter fun p => p.1.scheduledFor ≤ now

/-- The send loop of the non-SSE route (lines 395–419): attempt every
selected task in order, update the task copy at its index, and pace with a
2-second delay after **every** attempt (the `setTimeout` is not guarded). -/
def sendJobLoop (oracle : StoredTask → Option String) (now : ℚ)
    (toSend : List (StoredTask × Nat)) (st : SendLoopState) : SendLoopState :=
  match toSend with
  | [] => st
  | (task, index) :: rest =>
    let st' :=
      match oracle task with
      | none =>
        { st with
          tasks := st.tasks.set index
            { task with status := TaskStatus.sent, sentAt := some now }
          details := st.details ++ [⟨task.«to», true, none⟩]
          successCount := st.successCount + 1
          trace := st.trace ++ [DispatchEvent.attempt task.«to», DispatchEvent.pacingDelay] }
      | some e =>
        { st with
          tasks := st.tasks.set index
            { task with status := TaskStatus.failed, error := some e }
          details := st.details ++ [⟨task.«to», false, some e⟩]
          failedCount := st.failedCount + 1
          trace := st.trace ++ [DispatchEvent.attempt task.«to», DispatchEvent.pacingDelay] }
    sendJobLoop oracle now rest st'

inductive SendJobResponse where
  | badRequest (msg : String)
  | noneDue (updatedJob : StoredJob)
  | ok (result : JobResult) (details : List SendDetail) (updatedJob : StoredJob)
deriving Repr, DecidableEq

/-- The non-SSE send-job `POST` (lines 332–453).  The
`recordSentEmails` history side effect is external (§6) and not part of the
response. -/
def sendJobPOST (job : StoredJob) (sendAll : Bool)
    (selectedEmails : Option (List String)) (now : ℚ)
    (oracle : StoredTask → Option String) : SendJobResponse :=
  if job.tasks = [] then SendJobResponse.badRequest "job data is required"
  else
    let pendingTasks := selectPendingTasks job selectedEmails
    if pendingTasks = [] then
      SendJobResponse.badRequest
        (match selectedEmails with
         | some _ => "请选择要发送的邮件"
         | none => "所有邮件已发送完成")
    else
      let tasksToSend :=
        if sendAll then pendingTasks
        else pendingTasks.filter fun p => p.1.scheduledFor ≤ now
      if tasksToSend = [] then SendJobResponse.noneDue job
      else
        let st := sendJobLoop oracle now tasksToSend ⟨job.tasks, [], 0, 0, 0, []⟩
        let allDone := st.tasks.all fun t => t.status ≠ TaskStatus.pending
        let updatedJob :=
          if allDone then
            { job with
              tasks := st.tasks
              status := if 0 < st.failedCount then JobStatus.failed
                        else JobStatus.completed
              result := some
                { total := st.tasks.length
                  success := (st.tasks.filter fun t => t.status = TaskStatus.sent).length
                  failed := (st.tasks.filter fun t => t.status = TaskStatus.failed).length } }
          else { job with tasks := st.tasks }
        SendJobResponse.ok
          { total := tasksToSend.length, success := st.successCount
            failed := st.failedCount }
          st.details updatedJob

/-! ### `src/app/api/cron/route.ts` — the SSE send `POST` -/

/-- The SSE send loop (lines 159–278): a task failing the deliverability
check transitions straight to `failed` with no pacing delay; otherwise the
send is attempted and the 2-second delay happens only when
`i < tasksToSend.length - 1`.  `validate` is the external deliverability
checker (`none` = valid). -/
def sseSendLoop (validate : String → Option String)
    (oracle : StoredTask → Option String) (now : ℚ) (total : Nat)
    (toSend : List (StoredTask × Nat)) (i : Nat) (st : SendLoopState) :
    SendLoopState :=
  match toSend with
  | [] => st
  | (task, index) :: rest =>
    match validate task.«to» with
    | some reason =>
      let st' :=
        { st with
          tasks := st.tasks.set index
            { task with status := TaskStatus.failed, error := some reason }
          details := st.details ++ [⟨task.«to», false, some reason⟩]
          skippedCount := st.skippedCount + 1
          trace := st.trace ++ [DispatchEvent.skipped task.«to»] }
      sseSendLoop validate oracle now total rest (i + 1) st'
    | none =>
      let delayPart : List DispatchEvent :=
        if i < total - 1 then [DispatchEvent.pacingDelay] else []
      let st' :=
        match oracle task with
        | none =>
          { st with
            tasks := st.tasks.set index
              { task with status := TaskStatus.sent, sentAt := some now }
            details := st.details ++ [⟨task.«to», true, none⟩]
            successCount := st.successCount + 1
            trace := st.trace ++ [DispatchEvent.attempt task.«to»] ++ delayPart }
        | some e =>
          { st with
            tasks := st.tasks.set index
              { task with status := TaskStatus.failed, error := some e }
            details := st.details ++ [⟨task.«to», false, some e⟩]
            failedCount := st.failedCount + 1
            trace := st.trace ++ [DispatchEvent.attempt task.«to»] ++ delayPart }
      sseSendLoop validate oracle now total rest (i + 1) st'

/-! ### `src/lib/gmail.ts` — `sendEmailBatch` -/

structure EmailTask where
  «to» : String
  subject : String
  content : String
deriving Repr, DecidableEq

structure BatchResult where
  total : Nat
  success : Nat
  failed : Nat
  results : List SendDetail
deriving Repr, DecidableEq

/-- The `sendEmailBatch` loop (lines 152–162): the 2-second delay follows
**every** send, the last included. -/
def sendEmailBatchTrace (tasks : List EmailTask) : List DispatchEvent :=
  tasks.flatMap fun t => [DispatchEvent.attempt t.«to», DispatchEvent.pacingDelay]

/-- `sendEmailBatch` (lines 141–170). -/
def sendEmailBatch (oracle : EmailTask → Option String) (tasks : List EmailTask) :
    BatchResult :=
  let results : List SendDetail := tasks.map fun t =>
    match oracle t with
    | none => ⟨t.«to», true, none⟩
    | some e => ⟨t.«to», false, some e⟩
  { total := tasks.length
    success := (results.filter fun r => r.success).length
    failed := (results.filter fun r => !r.success).length
    results := results }

/-! ### `src/lib/scheduled-emails.ts` — `processDueEmails` -/

structure ScheduledEmail where
  to_email : String
  subject : String
  content : String
  scheduled_for : ℚ
  status : TaskStatus
deriving Repr, DecidableEq

/-- The `processDueEmails` loop (lines 204–242) for the batch returned by
`getDueEmails(20)`: `processed` is incremented at the top of each iteration
and the 2-second delay fires only while `processed < dueEmails.length` —
i.e. between consecutive attempts, not after the last. -/
def processDueLoopTrace (due : List ScheduledEmail) (processed total : Nat) :
    List DispatchEvent :=
  match due with
  | [] => []
  | e :: rest =>
    let k := processed + 1
    (DispatchEvent.attempt e.to_email ::
      (if k < total then [DispatchEvent.pacingDelay] else [])) ++
      processDueLoopTrace rest k total

def processDueEmailsTrace (due : List ScheduledEmail) : List DispatchEvent :=
  processDueLoopTrace due 0 due.length

/-! ## Concrete instantiations used as test vectors -/

/-- A `JsDateEnv` whose `new Date(string)` fallback always fails and whose
serial conversion lands on 1900-01-01 (what a serial of 2 gives on a UTC
host). -/
def envTrivial : JsDateEnv :=
  { fallbackParse := fun _ => none, serialToCivil := fun _ => (1900, 1, 1) }

/-- A `JsDateEnv` whose `new Date(string)` fallback resolves every string to
1900-01-01 (a host that parses an unrecognised string to a fixed past date);
used to exercise the past-instant collapse. -/
def envPast : JsDateEnv :=
  { fallbackParse := fun _ => some (1900, 1, 1)
    serialToCivil := fun _ => (1900, 1, 1) }

/-- A `JsDateEnv` whose `new Date(string)` fallback resolves every string to
2030-01-01; used to exercise the future-schedule branch. -/
def envFuture : JsDateEnv :=
  { fallbackParse := fun _ => some (2030, 1, 1)
    serialToCivil := fun _ => (2030, 1, 1) }

/-- A pending task already due at time 0. -/
def taskDueA : StoredTask :=
  { «to» := "a@x.com", contactName := "", audienceType := "", phase := ""
    subject := "sA", sendDate := "", sendTime := "", day := "", content := "cA"
    delayHours := 0, scheduledFor := 0, status := TaskStatus.pending }

/-- A second pending task already due at time 0. -/
def taskDueB : StoredTask :=
  { «to» := "b@x.com", contactName := "", audienceType := "", phase := ""
    subject := "sB", sendDate := "", sendTime := "", day := "", content := "cB"
    delayHours := 0, scheduledFor := 0, status := TaskStatus.pending }

/-- A pending task scheduled in the future (instant 1000) relative to 0. -/
def taskFuture : StoredTask :=
  { «to» := "f@x.com", contactName := "", audienceType := "", phase := ""
    subject := "sF", sendDate := "", sendTime := "", day := "", content := "cF"
    delayHours := 1, scheduledFor := 1000, status := TaskStatus.pending }

def jobTwo : StoredJob :=
  { id := "job_2", tasks := [taskDueA, taskDueB], createdAt := 0
    status := JobStatus.pending }

def jobFuture : StoredJob :=
  { id := "job_f", tasks := [taskFuture], createdAt := 0
    status := JobStatus.pending }

/-- A transport that fails exactly for `a@x.com`. -/
def oracleFailA : StoredTask → Option String :=
  fun t => if t.«to» = "a@x.com" then some "SMTP error" else none

/-- The updated job carried by a send-job response. -/
def responseJob (r : SendJobResponse) (dflt : StoredJob) : StoredJob :=
  match r with
  | SendJobResponse.ok _ _ j => j
  | SendJobResponse.noneDue j => j
  | SendJobResponse.badRequest _ => dflt

/-- `jobTwo` after a first dispatch restricted to `a@x.com` whose send
fails: task A becomes `failed`, task B stays `pending`. -/
def jobTwoAfterFirst : StoredJob :=
  responseJob (sendJobPOST jobTwo false (some ["a@x.com"]) 0 oracleFailA) jobTwo

/-- `jobTwoAfterFirst` after a second dispatch with no inclusion set whose
send succeeds: task B becomes `sent` and the route recomputes the job
status from this invocation's `failedCount` only. -/
def jobTwoAfterSecond : StoredJob :=
  responseJob (sendJobPOST jobTwoAfterFirst false none 0 (fun _ => none))
    jobTwoAfterFirst

/-- One upload row carrying a valid task. -/
def rowGood : Row :=
  [("Email", "a@b.c"), ("Subject", "s"), ("Email Body", "c")]

/-- One upload row with an invalid address. -/
def rowBadEmail : Row :=
  [("Email", "nope"), ("Subject", "s"), ("Email Body", "c")]

/-! # Theorems -/

/-! ## Helper lemmas -/

/-- `calculateSchedule` factored through the instant it computes: every
branch either collapses to `immediateResult now` or returns the future
instant with its rounded delay. -/
theorem calculateSchedule_cases (env : JsDateEnv) (sendDate sendTime : String)
    (now : ℚ) :
    calculateSchedule env sendDate sendTime now =
      match scheduledInstantOf env sendDate sendTime with
      | none => immediateResult now
      | some t =>
        if 8640000000000000 < |t| then immediateResult now
        else if (t - now) / (1000 * 60 * 60) ≤ 0 then immediateResult now
        else
          { delayHours := round2 ((t - now) / (1000 * 60 * 60))
            scheduledTimestamp := t
            beijingTimeStr := formatToBeijingTime t } := by
  unfold calculateSchedule scheduledInstantOf
  by_cases hd : sendDate = ""
  · simp only [hd, if_true]
  · simp only [if_neg hd]
    cases hp : parseDatePart env (jsTrim sendDate) with
    | none => simp only [hp]
    | some civst =>
      obtain ⟨civ, st⟩ := civst
      simp only [hp]

/-- Unparseable-date specialisation of `calculateSchedule_cases`. -/
theorem calculateSchedule_none (env : JsDateEnv) (sendDate sendTime : String)
    (now : ℚ) (h : scheduledInstantOf env sendDate sendTime = none) :
    calculateSchedule env sendDate sendTime now = immediateResult now := by
  rw [calculateSchedule_cases, h]

/-- Parseable-date specialisation of `calculateSchedule_cases`. -/
theorem calculateSchedule_some (env : JsDateEnv) (sendDate sendTime : String)
    (now t : ℚ) (h : scheduledInstantOf env sendDate sendTime = some t) :
    calculateSchedule env sendDate sendTime now =
      (if 8640000000000000 < |t| then immediateResult now
       else if (t - now) / (1000 * 60 * 60) ≤ 0 then immediateResult now
       else
         { delayHours := round2 ((t - now) / (1000 * 60 * 60))
           scheduledTimestamp := t
           beijingTimeStr := formatToBeijingTime t }) := by
  rw [calculateSchedule_cases, h]

/-! ## C1 -/

/-- C1: for every input to `calculateSchedule`, if the date is unparseable
(`scheduledInstantOf` is `none`, the spec's `parseCalendarDate = null`) or the
computed absolute instant is `≤ now`, the result is exactly
`{scheduledInstant := now, delayHours := 0, displayString := display now}` —
the schedule collapses to "immediate", however far in the past the parsed
date was. -/
theorem C1_immediate_collapse (env : JsDateEnv) (sendDate sendTime : String)
    (now : ℚ) :
    (scheduledInstantOf env sendDate sendTime = none →
        calculateSchedule env sendDate sendTime now = immediateResult now) ∧
    (∀ t : ℚ, scheduledInstantOf env sendDate sendTime = some t → t ≤ now →
        calculateSchedule env sendDate sendTime now = immediateResult now) := by
  constructor
  · intro h
    rw [calculateSchedule_cases, h]
  · intro t ht hle
    rw [calculateSchedule_cases, ht]
    by_cases hclip : 8640000000000000 < |t|
    · simp [hclip]
    · have hdiv : (t - now) / (1000 * 60 * 60) ≤ 0 :=
        div_nonpos_of_nonpos_of_nonneg (by linarith) (by norm_num)
      simp [hclip, hdiv]

/-- C1 witness: an unparseable date string under `envTrivial`, and a date
resolved by the `envPast` fallback to 1900-01-01 PST, whose instant lies
before `now = 0`; both collapse to the immediate result. -/
theorem C1_immediate_collapse_witness :
    (scheduledInstantOf envTrivial "not a date" "" = none ∧
      calculateSchedule envTrivial "not a date" "" 0 = immediateResult 0) ∧
    (scheduledInstantOf envPast "someday" "later" = some (-2208960000000) ∧
      (-2208960000000 : ℚ) ≤ 0 ∧
      calculateSchedule envPast "someday" "later" 0 = immediateResult 0) := by
  have h1 : scheduledInstantOf envTrivial "not a date" "" = none := by decide
  have h2 : scheduledInstantOf envPast "someday" "later" =
      some (-2208960000000) := by decide
  have h3 : (-2208960000000 : ℚ) ≤ 0 := by norm_num
  exact ⟨⟨h1, (C1_immediate_collapse envTrivial "not a date" "" 0).1 h1⟩,
    h2, h3, (C1_immediate_collapse envPast "someday" "later" 0).2 _ h2 h3⟩

/-! ## C2 -/

/-- C2 counterexample: the source offset is **not** one constant — for
2025-01-01 `calculateSchedule` adds 8 hours (PST) and for 2025-07-01 it adds
7 hours (PDT), refuting "the offset added to the hours field is the same
number for every input date". -/
theorem C2_counterexample :
    pacificOffsetFor 2025 1 1 = 8 ∧ pacificOffsetFor 2025 7 1 = 7 ∧
      ¬ (∀ y1 m1 d1 y2 m2 d2 : Int,
          pacificOffsetFor y1 m1 d1 = pacificOffsetFor y2 m2 d2) := by
  refine ⟨by decide, by decide, fun h => ?_⟩
  have h2 := h 2025 1 1 2025 7 1
  simp [pacificOffsetFor, isPacificDST] at h2

/-- C2 (amended): the offset `calculateSchedule` adds to the parsed
wall-clock hours before calling `Date.UTC` is not constant but depends on the
parsed calendar date: 7 when `isPacificDST(year, month, day)` holds (the
hand-rolled window March 15 – October 31 plus November 1 – 6) and 8
otherwise. -/
theorem C2_dst_dependent_offset (env : JsDateEnv) (sendDate sendTime : String)
    (civ : Int × Int × Int) (st : Option (Int × Int))
    (hne : sendDate ≠ "") (hp : parseDatePart env (jsTrim sendDate) = some (civ, st)) :
    (scheduledInstantOf env sendDate sendTime =
      some ((dateUTC civ.1 (civ.2.1 - 1) civ.2.2
          ((timeResolve (if sendTime = "" then "00:00" else jsTrim sendTime)
              (st.getD (0, 0)).1 (st.getD (0, 0)).2).1 +
            pacificOffsetFor civ.1 civ.2.1 civ.2.2)
          ((timeResolve (if sendTime = "" then "00:00" else jsTrim sendTime)
              (st.getD (0, 0)).1 (st.getD (0, 0)).2).2) : ℚ))) ∧
    pacificOffsetFor civ.1 civ.2.1 civ.2.2 =
      (if isPacificDST civ.1 civ.2.1 civ.2.2 then 7 else 8) ∧
    (∀ y m d : Int, isPacificDST y m d = true ↔
      (3 < m ∧ m < 11) ∨ (m = 3 ∧ 15 ≤ d) ∨ (m = 11 ∧ d < 7)) := by
  refine ⟨?_, rfl, ?_⟩
  · unfold scheduledInstantOf
    simp [hne, hp]
  · intro y m d
    unfold isPacificDST
    split_ifs with h1 h2 h3 <;> simp <;> omega

/-- C2 amended witness: the date "someday" resolved by the `envFuture`
fallback to 2030-01-01, a non-DST date, offset 8. -/
theorem C2_dst_dependent_offset_witness :
    ("someday" : String) ≠ "" ∧
    parseDatePart envFuture (jsTrim "someday") = some ((2030, 1, 1), none) ∧
    (scheduledInstantOf envFuture "someday" "" =
      some ((dateUTC 2030 (1 - 1) 1
          ((timeResolve "00:00" 0 0).1 + pacificOffsetFor 2030 1 1)
          ((timeResolve "00:00" 0 0).2) : ℚ)) ∧
      pacificOffsetFor 2030 1 1 = (if isPacificDST 2030 1 1 then 7 else 8) ∧
      (∀ y m d : Int, isPacificDST y m d = true ↔
        (3 < m ∧ m < 11) ∨ (m = 3 ∧ 15 ≤ d) ∨ (m = 11 ∧ d < 7))) := by
  have hne : ("someday" : String) ≠ "" := by decide
  have hp : parseDatePart envFuture (jsTrim "someday") =
      some ((2030, 1, 1), none) := by decide
  exact ⟨hne, hp,
    C2_dst_dependent_offset envFuture "someday" "" (2030, 1, 1) none hne hp⟩

/-! ## C8 -/

/-- C8 counterexample: the serial `0.9999` satisfies `0 ≤ x < 1`,
`round(x * 1440) = 1440`, and `excelSerialToTime` returns **hours = 24** —
there is no `% 24` wraparound, refuting "the returned hours always lie in
0..23" and "a serial close to 1 yields hours 0". -/
theorem C8_counterexample :
    (0 : ℚ) ≤ 9999 / 10000 ∧ (9999 / 10000 : ℚ) < 1 ∧
      round ((9999 / 10000 : ℚ) * 24 * 60) = 1440 ∧
      excelSerialToTime (9999 / 10000) = (24, 0) := by
  have hr : round ((9999 / 10000 : ℚ) * 24 * 60) = 1440 := by
    rw [round_eq]; norm_num
  refine ⟨by norm_num, by norm_num, hr, ?_⟩
  unfold excelSerialToTime
  rw [hr]
  decide

/-- C8 (amended): for a fractional-day serial `0 ≤ x < 1`,
`excelSerialToTime` returns `round(x * 1440)` total minutes split as
`hours = ⌊total / 60⌋` **without** any `% 24`: the hours lie in `0..24`
(not `0..23`), the minutes in `0..59`, and a serial close enough to 1 that
`round(x * 1440) = 1440` yields hours 24, minutes 0 — not hours 0. -/
theorem C8_no_hour_wraparound (x : ℚ) (h0 : 0 ≤ x) (h1 : x < 1) :
    excelSerialToTime x =
      (Int.fdiv (round (x * 24 * 60)) 60, Int.emod (round (x * 24 * 60)) 60) ∧
    0 ≤ (excelSerialToTime x).1 ∧ (excelSerialToTime x).1 ≤ 24 ∧
    0 ≤ (excelSerialToTime x).2 ∧ (excelSerialToTime x).2 < 60 ∧
    (round (x * 24 * 60) = 1440 → excelSerialToTime x = (24, 0)) := by
  have hb0 : (0 : ℤ) ≤ round (x * 24 * 60) := by
    rw [round_eq]
    apply Int.le_floor.mpr
    push_cast
    nlinarith
  have hb1 : round (x * 24 * 60) ≤ 1440 := by
    rw [round_eq]
    have h2 : x * 24 * 60 + 1 / 2 < ((1441 : ℤ) : ℚ) := by push_cast; nlinarith
    have h3 := Int.floor_lt.mpr h2
    omega
  have hfd : Int.fdiv (round (x * 24 * 60)) 60 = round (x * 24 * 60) / 60 :=
    Int.fdiv_eq_ediv _ (by norm_num)
  refine ⟨rfl, ?_, ?_, ?_, ?_, ?_⟩
  · show 0 ≤ Int.fdiv (round (x * 24 * 60)) 60
    rw [hfd]; omega
  · show Int.fdiv (round (x * 24 * 60)) 60 ≤ 24
    rw [hfd]; omega
  · exact Int.emod_nonneg _ (by norm_num)
  · exact Int.emod_lt_of_pos _ (by norm_num)
  · intro hr
    unfold excelSerialToTime
    rw [hr]
    decide

/-- C8 amended witness at `x = 1/2` (noon): total minutes 720, hours 12. -/
theorem C8_no_hour_wraparound_witness :
    (0 : ℚ) ≤ 1 / 2 ∧ (1 / 2 : ℚ) < 1 ∧
    (excelSerialToTime (1 / 2) =
        (Int.fdiv (round ((1 / 2 : ℚ) * 24 * 60)) 60,
         Int.emod (round ((1 / 2 : ℚ) * 24 * 60)) 60) ∧
      0 ≤ (excelSerialToTime (1 / 2 : ℚ)).1 ∧
      (excelSerialToTime (1 / 2 : ℚ)).1 ≤ 24 ∧
      0 ≤ (excelSerialToTime (1 / 2 : ℚ)).2 ∧
      (excelSerialToTime (1 / 2 : ℚ)).2 < 60 ∧
      (round ((1 / 2 : ℚ) * 24 * 60) = 1440 →
        excelSerialToTime (1 / 2 : ℚ) = (24, 0))) :=
  ⟨by norm_num, by norm_num,
    C8_no_hour_wraparound (1 / 2) (by norm_num) (by norm_num)⟩

/-! ## C7 -/

/-- C7: a row whose sent-marker field (under any recognised alias) holds a
non-empty value whose lowercased, trimmed form is in the recognised marker
set is skipped: the loop continues on the remaining rows with only
`skippedCount` incremented — the row contributes neither a task nor an error,
and since the equation holds for an arbitrary row with that marker, none of
its other fields is ever validated.  The marker set is exactly
`{"sent","yes","y","true","1","done","completed","已发送","发送成功","✓","✔"}`. -/
theorem C7_sent_marker_skip (env : JsDateEnv) (now : ℚ) (i : Nat) (row : Row)
    (rest : List Row) (acc : ParseAcc) (v : String)
    (hv : getColumnValue row sentStatusAliases = some v) (hne : v ≠ "")
    (hm : isSentMarker v = true) :
    parseRows env now i (row :: rest) acc =
      parseRows env now (i + 1) rest
        { acc with skippedCount := acc.skippedCount + 1 } ∧
    (∀ w : String, isSentMarker w = true ↔ jsTrim (jsToLower w) ∈ sentMarkers) := by
  constructor
  · have hstep : parseRowStep env now i row acc =
        { acc with skippedCount := acc.skippedCount + 1 } := by
      unfold parseRowStep
      rw [hv]
      simp [colFalsy, hne, hm]
    show parseRows env now (i + 1) rest (parseRowStep env now i row acc) = _
    rw [hstep]
  · intro w
    unfold isSentMarker
    simp

/-- C7 witness: a row marked "SENT" under the "Status" alias, whose email
field would not validate, is skipped without error. -/
theorem C7_sent_marker_skip_witness :
    getColumnValue [("Status", "SENT"), ("Email", "not-an-email")]
        sentStatusAliases = some "SENT" ∧
    ("SENT" : String) ≠ "" ∧
    isSentMarker "SENT" = true ∧
    (parseRows envTrivial 0 0 [[("Status", "SENT"), ("Email", "not-an-email")]]
        ⟨[], [], 0⟩ =
      parseRows envTrivial 0 1 [] ⟨[], [], 0 + 1⟩ ∧
      (∀ w : String, isSentMarker w = true ↔ jsTrim (jsToLower w) ∈ sentMarkers)) := by
  have hv : getColumnValue [("Status", "SENT"), ("Email", "not-an-email")]
      sentStatusAliases = some "SENT" := by decide
  have hne : ("SENT" : String) ≠ "" := by decide
  have hm : isSentMarker "SENT" = true := by decide
  exact ⟨hv, hne, hm,
    C7_sent_marker_skip envTrivial 0 0 _ [] ⟨[], [], 0⟩ "SENT" hv hne hm⟩

/-! ## C5 -/

/-- Invariant transfer of one `Map.set` step of the upload route's
within-file counting. -/
theorem bumpCount_mem (m : List (String × Nat)) (k : String)
    (f : String → Nat)
    (hm : ∀ e c, (e, c) ∈ m ↔ (0 < f e ∧ c = f e)) :
    ∀ e c, (e, c) ∈ bumpCount m k ↔
      (0 < (if e = k then f e + 1 else f e) ∧
        c = (if e = k then f e + 1 else f e)) := by
  intro e c
  unfold bumpCount
  by_cases hany : m.any (fun p => p.1 = k)
  · have hfk : 0 < f k := by
      rcases List.any_eq_true.mp hany with ⟨p, hp, hpk⟩
      rw [decide_eq_true_eq] at hpk
      have hmem : (k, p.2) ∈ m := by
        have hp2 : p = (p.1, p.2) := rfl
        rw [hp2, hpk] at hp
        exact hp
      exact ((hm k p.2).mp hmem).1
    simp only [hany, if_true, List.mem_map]
    by_cases hek : e = k
    · subst hek
      rw [if_pos rfl]
      constructor
      · rintro ⟨p, hp, hpe⟩
        by_cases hk : p.1 = e
        · rw [if_pos hk] at hpe
          have hc : p.2 + 1 = c := congrArg Prod.snd hpe
          have hmem : (e, p.2) ∈ m := by
            have hp2 : p = (p.1, p.2) := rfl
            rw [hp2, hk] at hp
            exact hp
          obtain ⟨h1, h2⟩ := (hm e p.2).mp hmem
          omega
        · rw [if_neg hk] at hpe
          exact absurd (congrArg Prod.fst hpe) hk
      · rintro ⟨-, hc⟩
        refine ⟨(e, f e), (hm e (f e)).mpr ⟨hfk, rfl⟩, ?_⟩
        rw [if_pos rfl, hc]
    · rw [if_neg hek]
      constructor
      · rintro ⟨p, hp, hpe⟩
        by_cases hk : p.1 = k
        · rw [if_pos hk] at hpe
          have he : p.1 = e := congrArg Prod.fst hpe
          exact absurd (he ▸ hk) hek
        · rw [if_neg hk] at hpe
          exact (hm e c).mp (hpe ▸ hp)
      · intro hc
        refine ⟨(e, c), (hm e c).mpr hc, ?_⟩
        exact if_neg hek
  · have hfk : f k = 0 := by
      by_contra hC
      have hpos : 0 < f k := Nat.pos_of_ne_zero hC
      have hmem : (k, f k) ∈ m := (hm k (f k)).mpr ⟨hpos, rfl⟩
      have : m.any (fun p => p.1 = k) :=
        List.any_eq_true.mpr ⟨(k, f k), hmem, by simp⟩
      exact hany this
    simp only [hany, if_false, Bool.false_eq_true, List.mem_append,
      List.mem_singleton]
    by_cases hek : e = k
    · subst hek
      rw [if_pos rfl]
      constructor
      · rintro (hin | heq)
        · obtain ⟨h1, -⟩ := (hm e c).mp hin
          rw [hfk] at h1
          omega
        · have hc : c = 1 := congrArg Prod.snd heq
          rw [hfk]
          omega
      · rintro ⟨-, hc⟩
        right
        rw [hfk] at hc
        rw [show c = 1 by omega]
    · rw [if_neg hek]
      constructor
      · rintro (hin | heq)
        · exact (hm e c).mp hin
        · exact absurd (congrArg Prod.fst heq) hek
      · intro hc
        exact Or.inl ((hm e c).mpr hc)

/-- The `emailCounts` fold computes exactly the per-normalized-address
occurrence counts. -/
theorem emailCounts_fold (l : List String) :
    ∀ (m : List (String × Nat)) (f : String → Nat),
      (∀ e c, (e, c) ∈ m ↔ (0 < f e ∧ c = f e)) →
      ∀ e c,
        (e, c) ∈ l.foldl (fun m email => bumpCount m (normalizeEmail email)) m ↔
          (0 < f e + (l.map normalizeEmail).count e ∧
            c = f e + (l.map normalizeEmail).count e) := by
  induction l with
  | nil => intro m f hm e c; simpa using hm e c
  | cons x xs ih =>
    intro m f hm e c
    have hstep := bumpCount_mem m (normalizeEmail x) f hm
    have hrec := ih (bumpCount m (normalizeEmail x))
      (fun e => if e = normalizeEmail x then f e + 1 else f e) hstep e c
    simp only [List.foldl_cons, List.map_cons, List.count_cons] at hrec ⊢
    rw [hrec]
    by_cases hex : e = normalizeEmail x
    · subst hex
      simp only [if_pos rfl, beq_self_eq_true, if_true]
      constructor <;> (rintro ⟨h1, h2⟩; constructor <;> omega)
    · have hbeq : (normalizeEmail x == e) = false := by
        simp only [beq_eq_false_iff_ne, ne_eq]
        intro h2
        exact hex h2.symm
      simp only [if_neg hex, hbeq, Bool.false_eq_true, if_false]
      constructor <;> (rintro ⟨h1, h2⟩; constructor <;> omega)

/-- Membership in `emailCounts`. -/
theorem emailCounts_mem (emails : List String) (e : String) (c : Nat) :
    (e, c) ∈ emailCounts emails ↔
      (0 < (emails.map normalizeEmail).count e ∧
        c = (emails.map normalizeEmail).count e) := by
  have := emailCounts_fold emails [] (fun _ => 0) (by simp) e c
  simpa [emailCounts] using this

/-- C5: the two over-send checks use different comparison operators.
`checkDuplicateEmails` returns exactly the history rows whose key is among
the normalized input addresses with `sent_count >= threshold` (so exactly
`threshold` prior sends is flagged, `threshold - 1` is not), while the
upload route's within-file duplicate list contains exactly the normalized
addresses occurring strictly more than 3 times in the current upload (an
address occurring exactly 3 times is not flagged). -/
theorem C5_threshold_operators :
    (∀ (store : List EmailHistoryRow) (emails : List String) (thr : Int)
        (r : EmailHistoryRecord),
      r ∈ checkDuplicateEmails store emails thr ↔
        ∃ row, row ∈ store ∧ r = rowToRecord row ∧
          row.email ∈ emails.map normalizeEmail ∧ thr ≤ row.sent_count) ∧
    (∀ (emails : List String) (e : String) (c : Nat),
      (e, c) ∈ inFileDuplicates emails ↔
        (c = (emails.map normalizeEmail).count e ∧ 3 < c)) := by
  constructor
  · intro store emails thr r
    unfold checkDuplicateEmails
    simp only [List.mem_map, List.mem_filter, Bool.and_eq_true,
      decide_eq_true_eq, List.contains_iff_exists_mem_beq]
    constructor
    · rintro ⟨row, ⟨hrow, hkey, hcnt⟩, hrec⟩
      rcases hkey with ⟨k, hk, hbeq⟩
      have hke : row.email = k := beq_iff_eq.mp hbeq
      rcases hk with ⟨a, ha, hn⟩
      exact ⟨row, hrow, hrec.symm, ⟨a, ha, hn.trans hke.symm⟩, hcnt⟩
    · rintro ⟨row, hrow, hrec, hkey, hcnt⟩
      exact ⟨row, ⟨hrow, ⟨row.email, hkey, by simp⟩, hcnt⟩, hrec.symm⟩
  · intro emails e c
    unfold inFileDuplicates
    rw [List.mem_filter]
    rw [emailCounts_mem]
    simp only [decide_eq_true_eq]
    constructor
    · rintro ⟨⟨_, hc⟩, h3⟩
      exact ⟨hc, h3⟩
    · rintro ⟨hc, h3⟩
      exact ⟨⟨by omega, hc⟩, h3⟩

/-! ## C3 -/

/-- C3: a task is attempted by the send-job route exactly when it is
`pending`, its address is in the caller-provided inclusion set (an absent set
admits all), and either the force-all flag (`sendAll`) is set or
`scheduledFor ≤ now`.  In particular a job with one pending task scheduled in
the future yields zero dispatch attempts and the unchanged job (task still
pending) when `sendAll = false`, and exactly that task is dispatched when
`sendAll = true`. -/
theorem C3_dispatch_selection :
    (∀ (job : StoredJob) (sendAll : Bool) (sel : Option (List String)) (now : ℚ)
        (t : StoredTask) (i : Nat),
      (t, i) ∈ tasksToSendOf job sendAll sel now ↔
        (job.tasks[i]? = some t ∧ t.status = TaskStatus.pending ∧
          (∀ l, sel = some l → t.«to» ∈ l) ∧
          (sendAll = true ∨ t.scheduledFor ≤ now))) ∧
    (∀ (job : StoredJob) (t : StoredTask) (now : ℚ)
        (oracle : StoredTask → Option String),
      job.tasks = [t] → t.status = TaskStatus.pending → now < t.scheduledFor →
        tasksToSendOf job false none now = [] ∧
        sendJobPOST job false none now oracle = SendJobResponse.noneDue job) ∧
    (∀ (job : StoredJob) (t : StoredTask) (now : ℚ),
      job.tasks = [t] → t.status = TaskStatus.pending →
        tasksToSendOf job true none now = [(t, 0)]) := by
  have hpred : ∀ (sel : Option (List String)) (t : StoredTask),
      ((t.status = TaskStatus.pending : Bool) &&
        (match sel with
         | none => true
         | some l => l.contains t.«to»)) = true ↔
        (t.status = TaskStatus.pending ∧ (∀ l, sel = some l → t.«to» ∈ l)) := by
    intro sel t
    cases sel with
    | none => simp
    | some l => simp [List.elem_iff]
  have hsel_mem : ∀ (job : StoredJob) (sel : Option (List String))
      (t : StoredTask) (i : Nat),
      (t, i) ∈ selectPendingTasks job sel ↔
        (job.tasks[i]? = some t ∧ t.status = TaskStatus.pending ∧
          (∀ l, sel = some l → t.«to» ∈ l)) := by
    intro job sel t i
    unfold selectPendingTasks
    rw [List.mem_filter]
    constructor
    · rintro ⟨hmap, hcond⟩
      rw [List.mem_map] at hmap
      rcases hmap with ⟨p, hp, hpe⟩
      obtain ⟨a, b⟩ := p
      simp only [Prod.mk.injEq] at hpe
      obtain ⟨hb, ha⟩ := hpe
      rw [hb, ha] at hp
      exact ⟨List.mk_mem_enum_iff_getElem?.mp hp, (hpred sel t).mp hcond⟩
    · rintro ⟨hget, hpend, hincl⟩
      refine ⟨?_, (hpred sel t).mpr ⟨hpend, hincl⟩⟩
      rw [List.mem_map]
      exact ⟨(i, t), List.mk_mem_enum_iff_getElem?.mpr hget, rfl⟩
  have hmem : ∀ (job : StoredJob) (sendAll : Bool) (sel : Option (List String))
      (now : ℚ) (t : StoredTask) (i : Nat),
      (t, i) ∈ tasksToSendOf job sendAll sel now ↔
        (job.tasks[i]? = some t ∧ t.status = TaskStatus.pending ∧
          (∀ l, sel = some l → t.«to» ∈ l) ∧
          (sendAll = true ∨ t.scheduledFor ≤ now)) := by
    intro job sendAll sel now t i
    unfold tasksToSendOf
    cases sendAll with
    | true =>
      rw [if_pos rfl, hsel_mem]
      constructor
      · rintro ⟨h1, h2, h3⟩
        exact ⟨h1, h2, h3, Or.inl rfl⟩
      · rintro ⟨h1, h2, h3, -⟩
        exact ⟨h1, h2, h3⟩
    | false =>
      rw [if_neg (by simp), List.mem_filter, hsel_mem]
      simp only [decide_eq_true_eq]
      constructor
      · rintro ⟨⟨h1, h2, h3⟩, h4⟩
        exact ⟨h1, h2, h3, Or.inr h4⟩
      · rintro ⟨h1, h2, h3, h4 | h4⟩
        · exact absurd h4 (by simp)
        · exact ⟨⟨h1, h2, h3⟩, h4⟩
  refine ⟨hmem, ?_, ?_⟩
  · intro job t now oracle hj hp hfut
    have hsel : selectPendingTasks job none = [(t, 0)] := by
      unfold selectPendingTasks
      rw [hj]
      simp [hp]
    have hempty : tasksToSendOf job false none now = [] := by
      unfold tasksToSendOf
      rw [hsel, if_neg (by simp)]
      simp [not_le.mpr hfut]
    refine ⟨hempty, ?_⟩
    unfold sendJobPOST
    rw [if_neg (by rw [hj]; simp), hsel, if_neg (by simp)]
    simp [not_le.mpr hfut]
  · intro job t now hj hp
    unfold tasksToSendOf selectPendingTasks
    rw [hj]
    simp [hp]

/-- C3 witness: `jobFuture` holds one pending task due at instant 1000; at
`now = 0` with `sendAll = false` nothing is attempted and the route returns
the unchanged job, while `sendAll = true` selects exactly that task. -/
theorem C3_dispatch_selection_witness :
    jobFuture.tasks = [taskFuture] ∧
    taskFuture.status = TaskStatus.pending ∧
    (0 : ℚ) < taskFuture.scheduledFor ∧
    (tasksToSendOf jobFuture false none 0 = [] ∧
      sendJobPOST jobFuture false none 0 (fun _ => none) =
        SendJobResponse.noneDue jobFuture) ∧
    tasksToSendOf jobFuture true none 0 = [(taskFuture, 0)] := by
  have h1 : jobFuture.tasks = [taskFuture] := rfl
  have h2 : taskFuture.status = TaskStatus.pending := rfl
  have h3 : (0 : ℚ) < taskFuture.scheduledFor := by decide
  exact ⟨h1, h2, h3,
    C3_dispatch_selection.2.1 jobFuture taskFuture 0 (fun _ => none) h1 h2 h3,
    C3_dispatch_selection.2.2 jobFuture taskFuture 0 h1 h2⟩

/-! ## C4 -/

/-- C4 (code bug): a reachable job state violating the claimed invariant.
After a first dispatch that fails task A and a second dispatch that sends
task B, every task has left `pending` and one task is `failed`, yet the job
status is `completed` — because the route computes the status from the
current invocation's `failedCount` instead of the task list, while its own
`result` field (recomputed from the task list) still records `failed = 1`. -/
theorem C4_failed_task_lost :
    jobTwoAfterSecond.status = JobStatus.completed ∧
    jobTwoAfterSecond.tasks.map (fun t => t.status) =
      [TaskStatus.failed, TaskStatus.sent] ∧
    jobTwoAfterSecond.result =
      some { total := 2, success := 1, failed := 1 } := by
  decide

/-! ## C6 -/

/-- C6 counterexample: for the empty row sequence, zero rows produce a valid
task, but the error is the fixed "Excel file is empty" message rather than
the claimed joined per-row error messages. -/
theorem C6_counterexample :
    (parseRows envTrivial 0 0 [] ⟨[], [], 0⟩).tasks = [] ∧
    parseExcelRows envTrivial 0 [] =
      ⟨false, none, some "Excel file is empty"⟩ ∧
    parseExcelRows envTrivial 0 [] ≠
      ⟨false, none, some ("No valid email tasks found. Errors: " ++
        joinSemicolon (parseRows envTrivial 0 0 [] ⟨[], [], 0⟩).errors)⟩ := by
  refine ⟨rfl, rfl, ?_⟩
  decide

/-- C6 (amended): for every **nonempty** row sequence the parser returns
success exactly when at least one row produced a valid task (rejected rows
never abort the batch), and returns `{success := false}` with the joined
per-row error messages exactly when zero rows survive; the empty sequence
instead yields the fixed "Excel file is empty" error. -/
theorem C6_partial_success (env : JsDateEnv) (now : ℚ) (data : List Row) :
    (data = [] → parseExcelRows env now data =
      ⟨false, none, some "Excel file is empty"⟩) ∧
    (data ≠ [] →
      ((parseExcelRows env now data).success = true ↔
        (parseRows env now 0 data ⟨[], [], 0⟩).tasks ≠ []) ∧
      ((parseRows env now 0 data ⟨[], [], 0⟩).tasks ≠ [] →
        parseExcelRows env now data =
          ⟨true, some (parseRows env now 0 data ⟨[], [], 0⟩).tasks, none⟩) ∧
      ((parseRows env now 0 data ⟨[], [], 0⟩).tasks = [] →
        parseExcelRows env now data =
          ⟨false, none, some ("No valid email tasks found. Errors: " ++
            joinSemicolon (parseRows env now 0 data ⟨[], [], 0⟩).errors)⟩)) := by
  constructor
  · intro h
    subst h
    rfl
  · intro hne
    unfold parseExcelRows
    rw [if_neg hne]
    by_cases ht : (parseRows env now 0 data ⟨[], [], 0⟩).tasks = []
    · rw [if_pos ht]
      exact ⟨by simp [ht], fun hc => absurd ht hc, fun _ => rfl⟩
    · rw [if_neg ht]
      exact ⟨by simp [ht], fun _ => rfl, fun hc => absurd hc ht⟩

/-- C6 witness: one valid row plus one invalid-address row still succeed
(partial success is not an error); the valid row alone survives. -/
theorem C6_partial_success_witness :
    ([rowGood, rowBadEmail] ≠ ([] : List Row)) ∧
    (parseRows envTrivial 0 0 [rowGood, rowBadEmail] ⟨[], [], 0⟩).tasks ≠ [] ∧
    (parseExcelRows envTrivial 0 [rowGood, rowBadEmail]).success = true := by
  have hne : [rowGood, rowBadEmail] ≠ ([] : List Row) := by decide
  have ht : (parseRows envTrivial 0 0 [rowGood, rowBadEmail] ⟨[], [], 0⟩).tasks ≠ [] := by
    decide
  exact ⟨hne, ht,
    ((C6_partial_success envTrivial 0 [rowGood, rowBadEmail]).2 hne).1.mpr ht⟩

/-! ## C9 -/

/-- C9 counterexample: a single-task batch through `sendEmailBatch` incurs
one pacing delay (after the last and only send), not `n - 1 = 0`. -/
theorem C9_counterexample :
    countDelays (sendEmailBatchTrace [⟨"a@b.c", "s", "c"⟩]) = 1 ∧
    (1 : Nat) ≠ ([(⟨"a@b.c", "s", "c"⟩ : EmailTask)].length - 1) := by
  decide

theorem countDelays_append (a b : List DispatchEvent) :
    countDelays (a ++ b) = countDelays a + countDelays b := by
  unfold countDelays
  exact List.countP_append _ _ _

theorem sendEmailBatchTrace_count (tasks : List EmailTask) :
    countDelays (sendEmailBatchTrace tasks) = tasks.length := by
  induction tasks with
  | nil => rfl
  | cons x xs ih =>
    unfold sendEmailBatchTrace at ih ⊢
    simp only [List.flatMap_cons]
    rw [countDelays_append, ih]
    rw [show countDelays
      [DispatchEvent.attempt x.«to», DispatchEvent.pacingDelay] = 1 from rfl]
    simp only [List.length_cons]
    omega

theorem sendJobLoop_trace_count (oracle : StoredTask → Option String)
    (now : ℚ) :
    ∀ (toSend : List (StoredTask × Nat)) (st : SendLoopState),
      countDelays (sendJobLoop oracle now toSend st).trace =
        countDelays st.trace + toSend.length := by
  intro toSend
  induction toSend with
  | nil => intro st; rfl
  | cons p rest ih =>
    intro st
    obtain ⟨task, index⟩ := p
    unfold sendJobLoop
    cases ho : oracle task with
    | none =>
      simp only [ho]
      rw [ih]
      simp only [List.length_cons, countDelays_append]
      rw [show countDelays
        [DispatchEvent.attempt task.«to», DispatchEvent.pacingDelay] = 1 from rfl]
      omega
    | some e =>
      simp only [ho]
      rw [ih]
      simp only [List.length_cons, countDelays_append]
      rw [show countDelays
        [DispatchEvent.attempt task.«to», DispatchEvent.pacingDelay] = 1 from rfl]
      omega

theorem processDueLoopTrace_count (due : List ScheduledEmail) :
    ∀ (processed total : Nat),
      countDelays (processDueLoopTrace due processed total) =
        min due.length (total - processed - 1) := by
  induction due with
  | nil =>
    intro processed total
    show 0 = min 0 (total - processed - 1)
    omega
  | cons e rest ih =>
    intro processed total
    unfold processDueLoopTrace
    rw [countDelays_append, ih]
    by_cases hk : processed + 1 < total
    · rw [if_pos hk]
      have h1 : countDelays (DispatchEvent.attempt e.to_email ::
          [DispatchEvent.pacingDelay]) = 1 := rfl
      rw [h1]
      simp only [List.length_cons]
      omega
    · rw [if_neg hk]
      have h0 : countDelays [DispatchEvent.attempt e.to_email] = 0 := rfl
      rw [h0]
      simp only [List.length_cons]
      omega

theorem sseSendLoop_trace_count (validate : String → Option String)
    (oracle : StoredTask → Option String) (now : ℚ) :
    ∀ (toSend : List (StoredTask × Nat)) (i total : Nat) (st : SendLoopState),
      (∀ p ∈ toSend, validate p.1.«to» = none) →
      total = i + toSend.length →
      countDelays (sseSendLoop validate oracle now total toSend i st).trace =
        countDelays st.trace + (toSend.length - 1) := by
  intro toSend
  induction toSend with
  | nil => intro i total st hval htot; rfl
  | cons p rest ih =>
    intro i total st hval htot
    obtain ⟨task, index⟩ := p
    have hv : validate task.«to» = none := hval (task, index) (by simp)
    unfold sseSendLoop
    rw [hv]
    have hval2 : ∀ q ∈ rest, validate q.1.«to» = none := by
      intro q hq
      exact hval q (List.mem_cons_of_mem _ hq)
    have htot2 : total = (i + 1) + rest.length := by
      simp only [List.length_cons] at htot
      omega
    have hdelay : countDelays
        (if i < total - 1 then [DispatchEvent.pacingDelay] else []) =
        (if rest = [] then 0 else 1) := by
      rcases List.eq_nil_or_concat rest with hrest | ⟨_, _, hrest⟩
      · subst hrest
        simp only [List.length_nil] at htot2
        have : ¬ i < total - 1 := by omega
        rw [if_pos rfl, if_neg this]
        rfl
      · have hne : rest ≠ [] := by
          rw [hrest]; simp
        have hlen : 0 < rest.length := List.length_pos.mpr hne
        have : i < total - 1 := by omega
        rw [if_pos this, if_neg hne]
        rfl
    cases ho : oracle task with
    | none =>
      simp only [ho]
      rw [ih (i + 1) total _ hval2 htot2]
      simp only [countDelays_append]
      rw [show countDelays [DispatchEvent.attempt task.«to»] = 0 from rfl]
      rw [hdelay]
      rcases List.eq_nil_or_concat rest with hrest | ⟨_, _, hrest⟩
      · subst hrest
        simp
      · have hne : rest ≠ [] := by rw [hrest]; simp
        have hlen : 0 < rest.length := List.length_pos.mpr hne
        rw [if_neg hne]
        simp only [List.length_cons]
        omega
    | some e =>
      simp only [ho]
      rw [ih (i + 1) total _ hval2 htot2]
      simp only [countDelays_append]
      rw [show countDelays [DispatchEvent.attempt task.«to»] = 0 from rfl]
      rw [hdelay]
      rcases List.eq_nil_or_concat rest with hrest | ⟨_, _, hrest⟩
      · subst hrest
        simp
      · have hne : rest ≠ [] := by rw [hrest]; simp
        have hlen : 0 < rest.length := List.length_pos.mpr hne
        rw [if_neg hne]
        simp only [List.length_cons]
        omega

/-- C9 (amended): pacing differs by code path.  `processDueEmails` and the
SSE send route (when no task is validation-skipped) pace **between** attempts
only: `n - 1` delays for `n` attempts.  `sendEmailBatch` and the non-SSE
send-job route pace after **every** attempt, the last included: `n` delays. -/
theorem C9_pacing_per_path :
    (∀ tasks : List EmailTask,
      countDelays (sendEmailBatchTrace tasks) = tasks.length) ∧
    (∀ (oracle : StoredTask → Option String) (now : ℚ)
        (toSend : List (StoredTask × Nat)) (st : SendLoopState),
      countDelays (sendJobLoop oracle now toSend st).trace =
        countDelays st.trace + toSend.length) ∧
    (∀ due : List ScheduledEmail,
      countDelays (processDueEmailsTrace due) = due.length - 1) ∧
    (∀ (validate : String → Option String) (oracle : StoredTask → Option String)
        (now : ℚ) (toSend : List (StoredTask × Nat)) (ts0 : List StoredTask),
      (∀ p ∈ toSend, validate p.1.«to» = none) →
      countDelays (sseSendLoop validate oracle now toSend.length toSend 0
          ⟨ts0, [], 0, 0, 0, []⟩).trace = toSend.length - 1) := by
  refine ⟨sendEmailBatchTrace_count, sendJobLoop_trace_count, ?_, ?_⟩
  · intro due
    unfold processDueEmailsTrace
    rw [processDueLoopTrace_count]
    omega
  · intro validate oracle now toSend ts0 hval
    rw [sseSendLoop_trace_count validate oracle now toSend 0 toSend.length _
      hval (by omega)]
    rw [show countDelays
      ({ tasks := ts0, details := [], successCount := 0, failedCount := 0,
         skippedCount := 0, trace := [] } : SendLoopState).trace = 0 from rfl]
    omega

/-- C9 amended witness: a two-task SSE batch with all validations passing
incurs exactly one pacing delay. -/
theorem C9_pacing_per_path_witness :
    (∀ p ∈ [(taskDueA, 0), (taskDueB, 1)],
      (fun _ : String => (none : Option String)) p.1.«to» = none) ∧
    countDelays (sseSendLoop (fun _ => none) (fun _ => none) 0
        (([(taskDueA, 0), (taskDueB, 1)] : List (StoredTask × Nat)).length)
        [(taskDueA, 0), (taskDueB, 1)] 0 ⟨[taskDueA, taskDueB], [], 0, 0, 0, []⟩).trace =
      ([(taskDueA, 0), (taskDueB, 1)] : List (StoredTask × Nat)).length - 1 := by
  have hval : ∀ p ∈ [(taskDueA, 0), (taskDueB, 1)],
      (fun _ : String => (none : Option String)) p.1.«to» = none := by
    intro p hp
    rfl
  exact ⟨hval, C9_pacing_per_path.2.2.2 (fun _ => none) (fun _ => none) 0
    [(taskDueA, 0), (taskDueB, 1)] [taskDueA, taskDueB] hval⟩

/-! ## C10 -/

/-- Two-decimal rounding is exact to within 1/200 of an hour. -/
theorem abs_round2_sub (q : ℚ) : |round2 q - q| ≤ 1 / 200 := by
  unfold round2
  have h := abs_sub_round (q * 100)
  rw [abs_sub_comm] at h
  have key : (round (q * 100) : ℚ) / 100 - q =
      ((round (q * 100) : ℚ) - q * 100) / 100 := by ring
  rw [key, abs_div]
  have h100 : |(100 : ℚ)| = 100 := by norm_num
  rw [h100]
  calc |(round (q * 100) : ℚ) - q * 100| / 100 ≤ (1 / 2) / 100 := by gcongr
    _ = 1 / 200 := by norm_num

/-- C10: `createJobData` derives every stored task's `scheduledFor` as one
fresh shared clock reading plus `delayHours * 3600000` (with `delayHours`
previously rounded to two decimals by `calculateSchedule`), while the durable
`scheduled_emails` records keep the parser's exact `scheduledTimestamp`; for
a future-scheduled row the two independently computed instants differ by at
most the elapsed time between parsing (`now0`) and job creation (`now1`)
plus the 18000 ms (= 0.005 h) rounding slack. -/
theorem C10_two_schedule_representations (env : JsDateEnv)
    (sendDate sendTime : String) (now0 now1 : ℚ) (jobId : String)
    (hfut : now0 <
      (calculateSchedule env sendDate sendTime now0).scheduledTimestamp) :
    (∀ tasks : List CreateJobInput,
      (createJobData tasks now1 jobId).tasks.map (fun t => t.scheduledFor) =
        tasks.map (fun t => now1 + t.delayHours * 60 * 60 * 1000)) ∧
    (∀ (tasks : List EmailTaskWithDelay) (now2 : ℚ),
      (uploadScheduledRecords tasks now2 jobId).map (fun r => r.scheduled_for) =
        (tasks.filter (fun t => now2 < t.scheduledTimestamp)).map
          (fun t => t.scheduledTimestamp)) ∧
    |now1 + (calculateSchedule env sendDate sendTime now0).delayHours *
        60 * 60 * 1000 -
      (calculateSchedule env sendDate sendTime now0).scheduledTimestamp| ≤
      |now1 - now0| + 18000 := by
  refine ⟨?_, ?_, ?_⟩
  · intro tasks
    unfold createJobData
    simp [List.map_map, Function.comp]
  · intro tasks now2
    unfold uploadScheduledRecords
    simp [List.map_map, Function.comp]
  · cases hsi : scheduledInstantOf env sendDate sendTime with
    | none =>
      rw [calculateSchedule_none env sendDate sendTime now0 hsi] at hfut
      simp only [immediateResult] at hfut
      exact absurd hfut (lt_irrefl now0)
    | some t =>
      rw [calculateSchedule_some env sendDate sendTime now0 t hsi] at hfut ⊢
      by_cases hclip : 8640000000000000 < |t|
      · rw [if_pos hclip] at hfut
        simp only [immediateResult] at hfut
        exact absurd hfut (lt_irrefl now0)
      · rw [if_neg hclip] at hfut ⊢
        by_cases hneg : (t - now0) / (1000 * 60 * 60) ≤ 0
        · rw [if_pos hneg] at hfut
          simp only [immediateResult] at hfut
          exact absurd hfut (lt_irrefl now0)
        · rw [if_neg hneg] at hfut ⊢
          dsimp only
          set d : ℚ := (t - now0) / (1000 * 60 * 60) with hd
          have hdm : d * (60 * 60 * 1000) = t - now0 := by
            rw [hd]
            field_simp
            exact Or.inl (by norm_num)
          have hr2 := abs_round2_sub d
          have heq : now1 + round2 d * 60 * 60 * 1000 - t =
              (now1 - now0) + (round2 d - d) * (60 * 60 * 1000) := by
            linarith [hdm]
          calc |now1 + round2 d * 60 * 60 * 1000 - t|
              = |(now1 - now0) + (round2 d - d) * (60 * 60 * 1000)| := by
                rw [heq]
            _ ≤ |now1 - now0| + |(round2 d - d) * (60 * 60 * 1000)| :=
                abs_add _ _
            _ = |now1 - now0| + |round2 d - d| * 3600000 := by
                rw [abs_mul]
                norm_num
            _ ≤ |now1 - now0| + (1 / 200) * 3600000 := by gcongr
            _ = |now1 - now0| + 18000 := by norm_num

/-- C10 witness: the date "someday" under `envFuture` parses to 2030-01-01
PST = instant 1893484800000; at parse time 0 this is in the future, so the
drift between the job's recomputed `scheduledFor` (at job-creation time
12345) and the durable record's exact instant is bounded as claimed. -/
theorem C10_two_schedule_representations_witness :
    ((0 : ℚ) <
      (calculateSchedule envFuture "someday" "x" 0).scheduledTimestamp) ∧
    ((∀ tasks : List CreateJobInput,
      (createJobData tasks 12345 "job_w").tasks.map (fun t => t.scheduledFor) =
        tasks.map (fun t => (12345 : ℚ) + t.delayHours * 60 * 60 * 1000)) ∧
    (∀ (tasks : List EmailTaskWithDelay) (now2 : ℚ),
      (uploadScheduledRecords tasks now2 "job_w").map
          (fun r => r.scheduled_for) =
        (tasks.filter (fun t => now2 < t.scheduledTimestamp)).map
          (fun t => t.scheduledTimestamp)) ∧
    |(12345 : ℚ) + (calculateSchedule envFuture "someday" "x" 0).delayHours *
        60 * 60 * 1000 -
      (calculateSchedule envFuture "someday" "x" 0).scheduledTimestamp| ≤
      |(12345 : ℚ) - 0| + 18000) := by
  have hT : scheduledInstantOf envFuture "someday" "x" =
      some 1893484800000 := by decide
  have habs : |(1893484800000 : ℚ)| = 1893484800000 :=
    abs_of_nonneg (by norm_num)
  have hfut : (0 : ℚ) <
      (calculateSchedule envFuture "someday" "x" 0).scheduledTimestamp := by
    rw [calculateSchedule_some envFuture "someday" "x" 0 1893484800000 hT]
    rw [habs, if_neg (by norm_num), if_neg (by norm_num)]
    show (0 : ℚ) < 1893484800000
    norm_num
  exact ⟨hfut, C10_two_schedule_representations envFuture "someday" "x" 0
    12345 "job_w" hfut⟩

end EmailSender

